import Mathlib

/-!
Shallow embedding of the flow2apex PR-diff report generator (package `main` of
the GitHub-action command in this repository).  Go strings / byte slices are
modelled as `List Char` (one `Char` per byte; all the strings the program
manipulates at decision points are ASCII).  Go's `int` exit codes are `Int`,
Go's `if err != nil` results are `Except` / explicit flags.  External processes
(git, diff, the flow2apex converter) are modelled by value parameters that
stand for the observed result of one invocation; everything the program does
with those results is embedded faithfully, clause by clause.
-/

namespace Flow2Apex

/-! ## Constants (source: `const` block at the top of the main file) -/

def maxDiffChars : Nat := 12000

def maxErrorChars : Nat := 4000

def maxCommentChars : Nat := 60000

def sideBySideWidth : Nat := 200

def sideBySideTabSize : Nat := 3

/-! ## Generic string helpers mirroring the Go standard library -/

/-- Model of `strings.Split(s, "\n")`: cut at every newline; the empty string
splits into one empty field (the result is never the empty list, so extending
its head is total). -/
def splitLines : List Char → List (List Char)
  | [] => [[]]
  | c :: cs =>
    let rest := splitLines cs
    if c = '\n' then [] :: rest
    else (c :: rest.headI) :: rest.tail

/-- Model of `strings.Join(lines, "\n")`. -/
def joinLines : List (List Char) → List Char
  | [] => []
  | [l] => l
  | l :: ls => l ++ '\n' :: joinLines ls

/-- Model of `strings.Contains(s, pat)`: the pattern is a prefix at some
position of `s`. -/
def hasSubstring : List Char → List Char → Bool
  | [], pat => pat.isPrefixOf []
  | c :: rest, pat => pat.isPrefixOf (c :: rest) || hasSubstring rest pat

/-- Model of `unicode` whitespace as used by `strings.TrimSpace` on the ASCII
range (space, tab, newline, carriage return, vertical tab, form feed); the
program only ever trims output of `git diff --name-only`, which is ASCII. -/
def isSpaceChar (c : Char) : Bool :=
  c = ' ' || c = '\t' || c = '\n' || c = '\r' || c = Char.ofNat 11 || c = Char.ofNat 12

/-- Model of `strings.TrimSpace`. -/
def trimSpace (s : List Char) : List Char :=
  ((s.dropWhile isSpaceChar).reverse.dropWhile isSpaceChar).reverse

/-- Model of Go `html.EscapeString` on one character: it replaces exactly
`&`, `'`, `<`, `>`, `"`. -/
def htmlEscapeChar (c : Char) : List Char :=
  if c = '&' then "&amp;".toList
  else if c = Char.ofNat 39 then "&#39;".toList
  else if c = '<' then "&lt;".toList
  else if c = '>' then "&gt;".toList
  else if c = '"' then "&#34;".toList
  else [c]

/-- Model of Go `html.EscapeString`. -/
def htmlEscapeString (s : List Char) : List Char :=
  (s.map htmlEscapeChar).flatten

/-- Model of `strings.NewReplacer(p1, r1, p2, r2).Replace`: scan left to
right, at each position try the patterns in order, replace the first nonempty
match and continue after it (the program only instantiates this with nonempty
directory-path patterns). -/
def replace2 (p1 r1 p2 r2 : List Char) : List Char → List Char
  | [] => []
  | c :: cs =>
    if h1 : p1 ≠ [] ∧ p1.isPrefixOf (c :: cs) = true then
      r1 ++ replace2 p1 r1 p2 r2 ((c :: cs).drop p1.length)
    else if h2 : p2 ≠ [] ∧ p2.isPrefixOf (c :: cs) = true then
      r2 ++ replace2 p1 r1 p2 r2 ((c :: cs).drop p2.length)
    else c :: replace2 p1 r1 p2 r2 cs
termination_by s => s.length
decreasing_by
  · simp only [List.length_drop, List.length_cons]
    have := List.length_pos.mpr h1.1
    omega
  · simp only [List.length_drop, List.length_cons]
    have := List.length_pos.mpr h2.1
    omega
  · simp only [List.length_cons]
    omega

/-! ## SideBySideInterpreter (`findSideBySideMarker`, `isLikelySideBySideMarker`,
`suppressCommonSideBySideDiffLines`, `formatSideBySideDiffHTMLLine`) -/

/-- Source `isLikelySideBySideMarker(line, idx, marker)`.  The Go index is an
`int` with an `idx < 0` guard; here `idx : Nat`, so that guard is vacuous.
Both `line[idx-1]` and `line[idx+1]` accesses are guarded in the source, so the
`getD` defaults are never used. -/
def isLikelySideBySideMarker (line : List Char) (idx : Nat) (marker : Char) : Bool :=
  if idx ≥ line.length then false
  else if idx = 0 then false
  else
    let prev := line.getD (idx - 1) ' '
    if prev ≠ ' ' ∧ prev ≠ '\t' then false
    else if idx + 1 ≥ line.length then decide (marker = '<' ∨ marker = '>')
    else
      let next := line.getD (idx + 1) ' '
      decide (next = ' ' ∨ next = '\t')

/-- Source `findSideBySideMarker(line)`.  The Go version returns
`(0, 0, false)` for "no marker"; the boolean is modelled by `Option`.
Go computes `mid := (sideBySideWidth / 2) - 1` and clamps a negative result to
0; Nat subtraction clamps at 0 identically. -/
def findSideBySideMarker (line : List Char) : Option (Nat × Char) :=
  if line.length = 0 then none
  else
    let mid := sideBySideWidth / 2 - 1
    if mid ≥ line.length then none
    else
      let marker := line.getD mid ' '
      if marker = '|' ∨ marker = '<' ∨ marker = '>' then
        if isLikelySideBySideMarker line mid marker then some (mid, marker) else none
      else none

/-- Source `suppressCommonSideBySideDiffLines(diffText)`. -/
def suppressCommonSideBySideDiffLines (diffText : List Char) : List Char :=
  if diffText = [] then diffText
  else
    joinLines ((splitLines diffText).filter (fun line => (findSideBySideMarker line).isSome))

/-- Source `formatSideBySideDiffHTMLLine(line)`. -/
def formatSideBySideDiffHTMLLine (line : List Char) : List Char :=
  if line = [] then []
  else
    match findSideBySideMarker line with
    | none => htmlEscapeString line
    | some (markerIdx, marker) =>
      if marker = '|' then
        "<span class=\"left\">".toList ++ htmlEscapeString (line.take markerIdx)
          ++ "</span><span class=\"sep\">|</span><span class=\"right\">".toList
          ++ htmlEscapeString (line.drop (markerIdx + 1)) ++ "</span>".toList
      else if marker = '<' then
        "<span class=\"left\">".toList ++ htmlEscapeString (line.take (markerIdx + 1))
          ++ "</span>".toList ++ htmlEscapeString (line.drop (markerIdx + 1))
      else if marker = '>' then
        htmlEscapeString (line.take markerIdx)
          ++ "<span class=\"right\">".toList ++ htmlEscapeString (line.drop markerIdx)
          ++ "</span>".toList
      else htmlEscapeString line

/-- Source `formatSideBySideDiffHTML(diffText)`. -/
def formatSideBySideDiffHTML (diffText : List Char) : List Char :=
  if diffText = [] then []
  else joinLines ((splitLines diffText).map formatSideBySideDiffHTMLLine)

/-! ## Truncation (`truncateDiff`, `truncateBytes`, and the comment-body cap
applied inline in `run`) -/

/-- Source `truncateDiff(diffText)`. -/
def truncateDiff (diffText : List Char) : List Char :=
  if diffText.length ≤ maxDiffChars then diffText
  else diffText.take maxDiffChars ++ "\n...diff truncated...".toList

/-- Source `truncateBytes(data, max)`. -/
def truncateBytes (data : List Char) (mx : Nat) : List Char :=
  if data.length ≤ mx then data
  else data.take mx

/-- Source `run`, comment finalization: `if len(commentBody) > maxCommentChars`
then slice and append the truncation notice. -/
def truncateCommentBody (commentBody : List Char) : List Char :=
  if commentBody.length > maxCommentChars then
    commentBody.take maxCommentChars ++ "\n...comment truncated due to size limit...\n".toList
  else commentBody

/-! ## ChangeDetector (`detectChangedFlows`, `dedupe`) -/

/-- Model of the regexp `\.flow(-meta\.xml)?$` used in `detectChangedFlows`:
it matches a line exactly when the line ends in `.flow` or `.flow-meta.xml`. -/
def flowFileMatch (line : List Char) : Bool :=
  ".flow".toList.isSuffixOf line || ".flow-meta.xml".toList.isSuffixOf line

/-- Source `dedupe`, inner loop: `prev` is updated on every iteration and an
element is kept when it differs from its immediate predecessor. -/
def dedupeAux (prev : List Char) : List (List Char) → List (List Char)
  | [] => []
  | s :: rest => if s = prev then dedupeAux s rest else s :: dedupeAux s rest

/-- Source `dedupe(in)`. -/
def dedupe (l : List (List Char)) : List (List Char) :=
  if l.length < 2 then l
  else
    match l with
    | [] => l
    | s :: rest => s :: dedupeAux s rest

/-- Source `detectChangedFlows`, as a function of the captured stdout of
`git diff --name-only --no-renames --diff-filter=ACMRD base head` (the one
external input it consumes).  `sort.Strings` sorts ascending in lexicographic
byte order; it is modelled by `List.insertionSort (· ≤ ·)` over `List Char`
with the lexicographic order — any correct ascending sort of a list of strings
produces the same list, since equal strings are indistinguishable. -/
def detectChangedFlows (gitOutput : List Char) : List (List Char) :=
  let lines := splitLines (trimSpace gitOutput)
  let flows := (lines.map trimSpace).filter (fun line => !line.isEmpty && flowFileMatch line)
  dedupe (List.insertionSort (· ≤ ·) flows)

/-! ## External diff processes (`runDiffCommand`, `sideBySideOptionUnsupported`,
`removeSideBySideCommandHeaders`, `rewriteSideBySideDiffPaths`,
`diffSideBySide`, `diffRenderedOutputs`) -/

/-- Observed result of one `exec.Cmd.Run` of the diff tool: either the process
ran to completion with an exit code and captured streams (`err == nil` exactly
when the code is 0, otherwise an `exec.ExitError`), or it could not be
launched at all (any other non-nil error). -/
inductive ProcResult where
  | completed (exitCode : Int) (stdout stderr : List Char)
  | launchFailed
deriving DecidableEq

/-- The tuple `runDiffCommand` hands back to its callers. -/
structure CmdResult where
  exitCode : Int
  stdout : List Char
  stderr : List Char
  launchErr : Bool
deriving DecidableEq

/-- Source `runDiffCommand(cmd)`: exit 0 / `ExitError` code with both streams
and no error; a launch failure yields `(2, "", "", err)`. -/
def runDiffCommand : ProcResult → CmdResult
  | .completed c o e => ⟨c, o, e, false⟩
  | .launchFailed => ⟨2, [], [], true⟩

/-- Source `sideBySideOptionUnsupported(stderrText)`. -/
def sideBySideOptionUnsupported (stderrText : List Char) : Bool :=
  let lower := stderrText.map Char.toLower
  hasSubstring lower "unrecognized option".toList
    || hasSubstring lower "illegal option".toList
    || hasSubstring lower "unknown option".toList

/-- Source `removeSideBySideCommandHeaders(diffText)`. -/
def removeSideBySideCommandHeaders (diffText : List Char) : List Char :=
  if diffText = [] then diffText
  else
    joinLines ((splitLines diffText).filter
      (fun line => !("diff --recursive --side-by-side ".toList.isPrefixOf line)))

/-- Source `rewriteSideBySideDiffPaths(diffText, flowPath, baseDir, headDir)`. -/
def rewriteSideBySideDiffPaths (diffText flowPath baseDir headDir : List Char) : List Char :=
  replace2 baseDir ("a/".toList ++ flowPath) headDir ("b/".toList ++ flowPath) diffText

/-- Error value modelling `fmt.Errorf("generate side-by-side diff output: %w", err)`. -/
def sbsLaunchErrMsg : List Char := "generate side-by-side diff output".toList

/-- Error value modelling the final
`fmt.Errorf("generate side-by-side diff output: diff options are not supported")`. -/
def sbsUnsupportedMsg : List Char :=
  "generate side-by-side diff output: diff options are not supported".toList

/-- Source `diffSideBySide`, attempt loop body over the fixed attempt list
`[{expandTabs: true}, {expandTabs: false}]`; `proc et` is the observed result
of running the diff command built with `expandTabs = et`. -/
def diffSideBySideLoop (proc : Bool → ProcResult) (flowPath baseDir headDir : List Char) :
    List Bool → Except (List Char) (Int × List Char)
  | [] => .error sbsUnsupportedMsg
  | et :: rest =>
    let r := runDiffCommand (proc et)
    if r.launchErr then .error sbsLaunchErrMsg
    else if r.exitCode = 2 ∧ sideBySideOptionUnsupported r.stderr = true then
      diffSideBySideLoop proc flowPath baseDir headDir rest
    else
      .ok (r.exitCode,
        removeSideBySideCommandHeaders
          (rewriteSideBySideDiffPaths r.stdout flowPath baseDir headDir))

/-- Source `diffSideBySide(workspace, flowPath, baseDir, headDir)`. -/
def diffSideBySide (proc : Bool → ProcResult) (flowPath baseDir headDir : List Char) :
    Except (List Char) (Int × List Char) :=
  diffSideBySideLoop proc flowPath baseDir headDir [true, false]

/-- Error value modelling `fmt.Errorf("generate diff output: %w", err)` in the
unified branch. -/
def uniLaunchErrMsg : List Char := "generate diff output".toList

/-- Source `diffRenderedOutputs(workspace, flowPath, baseDir, headDir,
diffFormat)`: the side-by-side branch delegates to `diffSideBySide`; the
default (unified) branch runs `git diff --no-index` with `a/<flowPath>/` and
`b/<flowPath>/` label prefixes and returns the exit code and raw stdout. -/
def diffRenderedOutputs (diffFormatSbs : Bool) (sbsProc : Bool → ProcResult)
    (uniProc : ProcResult) (flowPath baseDir headDir : List Char) :
    Except (List Char) (Int × List Char) :=
  if diffFormatSbs then diffSideBySide sbsProc flowPath baseDir headDir
  else
    let r := runDiffCommand uniProc
    if r.launchErr then .error uniLaunchErrMsg
    else .ok (r.exitCode, r.stdout)

/-! ## FlowRenderer (`renderFlow`, `runFlow2ApexToDir`, `runFlow2ApexToStdout`) -/

/-- Observed result of `os.Stat` on the flow file inside one checkout:
present, absent (`os.IsNotExist`), or some other stat error. -/
inductive StatResult where
  | present | notExist | failed
deriving DecidableEq

/-- Observed result of `runFlow2ApexToDir` seen through its return values:
`success` when `cmd.Run` returns nil (stderr captured), `exitErr` on an
`exec.ExitError` (stderr captured), `launchErr` on any other error. -/
inductive DirModeResult where
  | success (stderr : List Char)
  | exitErr (stderr : List Char)
  | launchErr
deriving DecidableEq

/-- Observed result of `runFlow2ApexToStdout` (both streams captured). -/
inductive StreamModeResult where
  | success (stdout stderr : List Char)
  | exitErr (stdout stderr : List Char)
  | launchErr
deriving DecidableEq

/-- The `(int, []byte)` pair `renderFlow` returns on the `err == nil` paths,
plus the files it explicitly writes into the per-flow output directory
(only the stream-mode fallback writes one; directory-mode artifacts are
written by the converter process itself and are not part of this value). -/
structure RenderResult where
  status : Nat
  log : List Char
  artifacts : List (List Char × List Char)
deriving DecidableEq

/-- Source `renderFlow(checkoutDir, flow2apexBin, flowPath, outputDir)`.
`.error` models every `err != nil` return (the caller `run` aborts on those);
the accompanying Go status int on error paths is dead.  `writeOk` is whether
the `os.WriteFile` of the stream-mode fallback artifact succeeds. -/
def renderFlow (stat : StatResult) (dirRun : DirModeResult) (streamRun : StreamModeResult)
    (writeOk : Bool) : Except (List Char) RenderResult :=
  match stat with
  | .notExist => .ok ⟨2, [], []⟩
  | .failed => .error "stat flow file".toList
  | .present =>
    match dirRun with
    | .launchErr => .error "run flow2apex with output-dir".toList
    | .success stderr => .ok ⟨0, stderr, []⟩
    | .exitErr stderr1 =>
      match streamRun with
      | .launchErr => .error "run flow2apex fallback".toList
      | .success stdout stderr2 =>
        if writeOk then .ok ⟨0, stderr1 ++ stderr2, [("generated.apex".toList, stdout)]⟩
        else .error "write generated apex fallback".toList
      | .exitErr _ stderr2 => .ok ⟨1, stderr1 ++ stderr2, []⟩

/-! ## ReportBuilder (`run`, per-flow comment assembly) -/

/-- Source `run`, lines writing the fenced log block inside the
"Conversion issues" section. -/
def logsBlock (baseLog headLog : List Char) : List Char :=
  if baseLog.length > 0 ∨ headLog.length > 0 then
    "```text\n".toList
      ++ (if baseLog.length > 0 then
            "[base]\n".toList ++ truncateBytes baseLog maxErrorChars ++ "\n".toList
          else [])
      ++ (if headLog.length > 0 then
            "[head]\n".toList ++ truncateBytes headLog maxErrorChars ++ "\n".toList
          else [])
      ++ "```\n\n".toList
  else []

/-- Source `run`, the status block guarded by
`if baseStatus == 1 || headStatus == 1`. -/
def conversionIssuesBlock (baseStatus headStatus : Nat) (baseLog headLog : List Char) :
    List Char :=
  if baseStatus = 1 ∨ headStatus = 1 then
    "Conversion issues:\n\n".toList
      ++ (if baseStatus = 1 then "- Base conversion failed\n".toList
          else if baseStatus = 2 then "- Base flow file missing (added in PR)\n".toList
          else [])
      ++ (if headStatus = 1 then "- Head conversion failed\n".toList
          else if headStatus = 2 then "- Head flow file missing (deleted in PR)\n".toList
          else [])
      ++ "\n".toList
      ++ logsBlock baseLog headLog
  else []

/-- Source `run`, the `switch diffExit` block as it contributes to the
Markdown comment (the HTML side is separate). -/
def diffSection (diffFormatSbs : Bool) (diffExit : Int) (diffText : List Char) : List Char :=
  if diffExit = 1 then
    let commentDiffText :=
      if diffFormatSbs then suppressCommonSideBySideDiffLines diffText else diffText
    let commentDiffText := truncateDiff commentDiffText
    (if diffFormatSbs then "```text\n".toList else "```diff\n".toList)
      ++ commentDiffText
      ++ (if !("\n".toList.isSuffixOf commentDiffText) then "\n".toList else [])
      ++ "```\n\n".toList
  else if diffExit = 0 then "No generated Apex differences.\n\n".toList
  else "Failed to generate diff output.\n\n".toList

/-- Source `run`, one flow's full contribution to the Markdown comment:
heading, conversion-issues block, diff block. -/
def flowSection (flowPath : List Char) (baseStatus headStatus : Nat)
    (baseLog headLog : List Char) (diffFormatSbs : Bool) (diffExit : Int)
    (diffText : List Char) : List Char :=
  "### `".toList ++ flowPath ++ "`\n\n".toList
    ++ conversionIssuesBlock baseStatus headStatus baseLog headLog
    ++ diffSection diffFormatSbs diffExit diffText

/-- Source `diffCommentMarker(diffFormat)`. -/
def diffCommentMarker (diffFormatSbs : Bool) : List Char :=
  "<!-- flow2apex-diff-comment:".toList
    ++ (if diffFormatSbs then "side-by-side".toList else "unified".toList)
    ++ " -->".toList

/-- Source `run`, the fixed comment header written before the flow loop. -/
def commentHeader (diffFormatSbs : Bool) (baseSHA headSHA : List Char) : List Char :=
  diffCommentMarker diffFormatSbs ++ "\n".toList
    ++ "## flow2apex Flow Diffs\n\n".toList
    ++ "Compared generated Apex between base `".toList ++ baseSHA
    ++ "` and head `".toList ++ headSHA ++ "` for changed flow files.\n\n".toList
    ++ "Diff format: `".toList
    ++ (if diffFormatSbs then "side-by-side".toList else "unified".toList)
    ++ "`.\n\n".toList

/-- Per-flow data `run` obtains from its render and diff calls, abstracted
over the external processes. -/
structure FlowData where
  baseStatus : Nat
  headStatus : Nat
  baseLog : List Char
  headLog : List Char
  diffExit : Int
  diffText : List Char

/-- What `run` persists and how many external render/diff operations it
performs after change detection. -/
structure RunReport where
  commentFileContent : List Char
  outputs : List (List Char × List Char)
  renderInvocations : Nat
  diffInvocations : Nat
deriving DecidableEq

/-- Source `run` after `detectChangedFlows` returns `flows`: with no flows it
writes an empty comment file and the `has_flow_changes=false` outputs and
returns before any worktree, render, or diff work; otherwise it renders each
flow at both revisions (2 `renderFlow` calls per flow), diffs once per flow,
assembles header plus per-flow sections, and truncates the comment body. -/
def runModel (flows : List (List Char)) (data : List Char → FlowData) (diffFormatSbs : Bool)
    (baseSHA headSHA commentFile htmlFileOutput : List Char) : RunReport :=
  if flows.length = 0 then
    { commentFileContent := []
      outputs := [("has_flow_changes".toList, "false".toList),
                  ("comment_file".toList, commentFile),
                  ("html_file".toList, htmlFileOutput)]
      renderInvocations := 0
      diffInvocations := 0 }
  else
    let body := commentHeader diffFormatSbs baseSHA headSHA
      ++ (flows.map (fun fp =>
            let d := data fp
            flowSection fp d.baseStatus d.headStatus d.baseLog d.headLog diffFormatSbs
              d.diffExit d.diffText)).flatten
    { commentFileContent := truncateCommentBody body
      outputs := [("has_flow_changes".toList, "true".toList),
                  ("comment_file".toList, commentFile),
                  ("html_file".toList, htmlFileOutput)]
      renderInvocations := 2 * flows.length
      diffInvocations := flows.length }

/-- A concrete observed pair of diff-tool runs: the tab-expansion attempt is
rejected (exit 2, "unrecognized option" on stderr), the retry without tab
expansion completes with exit 1. -/
def procW : Bool → ProcResult
  | true => .completed 2 [] "diff: unrecognized option --expand-tabs".toList
  | false => .completed 1 "left | right".toList []

/-! ## Helper lemmas -/

/-- A string that starts with the pattern contains it. -/
lemma hasSubstring_of_isPrefixOf (s pat : List Char) (h : pat.isPrefixOf s = true) :
    hasSubstring s pat = true := by
  cases s <;> simp_all [hasSubstring]

/-- A pattern occurring literally between two other pieces is found by
`hasSubstring` (the model of `strings.Contains`). -/
lemma hasSubstring_of_append (u pat v : List Char) :
    hasSubstring (u ++ (pat ++ v)) pat = true := by
  induction u with
  | nil =>
    exact hasSubstring_of_isPrefixOf _ _ (by simp)
  | cons c u ih =>
    simp [hasSubstring, ih]

/-- Characterization of `isLikelySideBySideMarker` at an in-range, nonzero
index: previous character is a space or tab, and either the line ends right
after the index (then only the one-sided markers pass) or the next character
is a space or tab. -/
lemma isLikelySideBySideMarker_iff (line : List Char) (idx : Nat) (marker : Char)
    (h1 : idx < line.length) (h2 : idx ≠ 0) :
    isLikelySideBySideMarker line idx marker = true ↔
      ((line.getD (idx - 1) ' ' = ' ' ∨ line.getD (idx - 1) ' ' = '\t') ∧
       ((line.length ≤ idx + 1 ∧ (marker = '<' ∨ marker = '>')) ∨
        (idx + 1 < line.length ∧
          (line.getD (idx + 1) ' ' = ' ' ∨ line.getD (idx + 1) ' ' = '\t')))) := by
  rw [isLikelySideBySideMarker, if_neg (by omega), if_neg h2]
  by_cases hp : line.getD (idx - 1) ' ' ≠ ' ' ∧ line.getD (idx - 1) ' ' ≠ '\t'
  · rw [if_pos hp]
    simp only [Bool.false_eq_true, false_iff]
    rintro ⟨hw, -⟩
    rcases hw with hw | hw
    · exact hp.1 hw
    · exact hp.2 hw
  · rw [if_neg hp]
    push_neg at hp
    have hw : line.getD (idx - 1) ' ' = ' ' ∨ line.getD (idx - 1) ' ' = '\t' := by
      by_cases hsp : line.getD (idx - 1) ' ' = ' '
      · exact .inl hsp
      · exact .inr (hp hsp)
    by_cases hend : idx + 1 ≥ line.length
    · rw [if_pos hend]
      simp only [decide_eq_true_eq]
      constructor
      · intro hm
        exact ⟨hw, .inl ⟨by omega, hm⟩⟩
      · rintro ⟨-, h | h⟩
        · exact h.2
        · omega
    · rw [if_neg hend]
      simp only [decide_eq_true_eq]
      constructor
      · intro hn
        exact ⟨hw, .inr ⟨by omega, hn⟩⟩
      · rintro ⟨-, h | h⟩
        · omega
        · exact h.2

/-- A line that does not reach past the marker column (index 99 at the fixed
width 200) carries no marker. -/
lemma findSideBySideMarker_eq_none_of_short (line : List Char) (h : line.length ≤ 99) :
    findSideBySideMarker line = none := by
  simp only [findSideBySideMarker, sideBySideWidth]
  norm_num
  intro h0
  omega

/-- A line carrying a marker reaches past the marker column. -/
lemma length_gt_of_findSideBySideMarker_isSome (line : List Char)
    (h : (findSideBySideMarker line).isSome = true) : 99 < line.length := by
  by_contra hle
  push_neg at hle
  rw [findSideBySideMarker_eq_none_of_short line (by omega)] at h
  simp at h

/-- The function `splitLines` always produces at least one field. -/
lemma splitLines_ne_nil (s : List Char) : splitLines s ≠ [] := by
  induction s with
  | nil => simp [splitLines]
  | cons c cs ih =>
    simp only [splitLines]
    split <;> simp

/-- No field produced by `splitLines` contains a newline. -/
lemma not_newline_mem_splitLines (s l : List Char) (hl : l ∈ splitLines s) : '\n' ∉ l := by
  induction s generalizing l with
  | nil =>
    simp [splitLines] at hl
    subst hl
    simp
  | cons c cs ih =>
    cases h : splitLines cs with
    | nil => exact absurd h (splitLines_ne_nil cs)
    | cons m ms =>
      simp only [splitLines, h, List.headI_cons, List.tail_cons] at hl
      by_cases hc : c = '\n'
      · rw [if_pos hc] at hl
        rcases List.mem_cons.mp hl with rfl | hl'
        · simp
        · exact ih l (h ▸ hl')
      · rw [if_neg hc] at hl
        rcases List.mem_cons.mp hl with rfl | hl'
        · have hm : '\n' ∉ m := ih m (h ▸ List.mem_cons_self m ms)
          simp only [List.mem_cons, not_or]
          exact ⟨fun e => hc e.symm, hm⟩
        · exact ih l (h ▸ List.mem_cons_of_mem m hl')

/-- A newline-free string is a single field. -/
lemma splitLines_of_not_newline (s : List Char) (h : '\n' ∉ s) : splitLines s = [s] := by
  induction s with
  | nil => rfl
  | cons c cs ih =>
    have hc : ¬(c = '\n') := fun e => h (e ▸ List.mem_cons_self c cs)
    have hcs : '\n' ∉ cs := fun m => h (List.mem_cons_of_mem c m)
    simp only [splitLines, ih hcs, if_neg hc, List.headI_cons, List.tail_cons]

/-- Splitting after joining one newline-free field back on. -/
lemma splitLines_append_newline (x t : List Char) (hx : '\n' ∉ x) :
    splitLines (x ++ '\n' :: t) = x :: splitLines t := by
  induction x with
  | nil =>
    simp [splitLines]
  | cons c cs ih =>
    have hc : ¬(c = '\n') := fun e => hx (e ▸ List.mem_cons_self c cs)
    have hcs : '\n' ∉ cs := fun m => hx (List.mem_cons_of_mem c m)
    simp only [List.cons_append, splitLines, List.append_eq, ih hcs, if_neg hc,
      List.headI_cons, List.tail_cons]

/-- Unfolding equation for `joinLines` on a list of two or more fields. -/
lemma joinLines_cons_cons (l m : List Char) (ms : List (List Char)) :
    joinLines (l :: m :: ms) = l ++ '\n' :: joinLines (m :: ms) := rfl

/-- The function `splitLines` inverts `joinLines` on nonempty lists of newline-free
fields. -/
lemma splitLines_joinLines (ls : List (List Char)) (h0 : ls ≠ [])
    (h1 : ∀ l ∈ ls, '\n' ∉ l) : splitLines (joinLines ls) = ls := by
  induction ls with
  | nil => exact absurd rfl h0
  | cons l ls ih =>
    cases ls with
    | nil => exact splitLines_of_not_newline l (h1 l (List.mem_cons_self l []))
    | cons m ms =>
      rw [joinLines_cons_cons, splitLines_append_newline l _ (h1 l (List.mem_cons_self l _))]
      rw [ih (List.cons_ne_nil m ms) (fun x hx => h1 x (List.mem_cons_of_mem l hx))]

/-- The inner loop of `dedupe` keeps, out of a run of elements sorted above
`prev`, only elements strictly above the running predecessor, so its output is
duplicate-free and everywhere strictly above `prev`. -/
lemma dedupeAux_spec (rest : List (List Char)) : ∀ prev : List Char,
    (prev :: rest).Pairwise (· ≤ ·) →
    (∀ x ∈ dedupeAux prev rest, prev ≤ x ∧ x ≠ prev) ∧ (dedupeAux prev rest).Nodup := by
  induction rest with
  | nil =>
    intro prev _
    simp [dedupeAux]
  | cons s rest ih =>
    intro prev h
    have hps : prev ≤ s := (List.pairwise_cons.mp h).1 s (List.mem_cons_self s rest)
    have htail : (s :: rest).Pairwise (· ≤ ·) := (List.pairwise_cons.mp h).2
    obtain ⟨ihmem, ihnd⟩ := ih s htail
    rw [dedupeAux]
    by_cases hsp : s = prev
    · rw [if_pos hsp]
      refine ⟨fun x hx => ?_, ihnd⟩
      obtain ⟨hx1, hx2⟩ := ihmem x hx
      exact ⟨hsp ▸ hx1, hsp ▸ hx2⟩
    · rw [if_neg hsp]
      constructor
      · intro x hx
        rcases List.mem_cons.mp hx with rfl | hx'
        · exact ⟨hps, hsp⟩
        · obtain ⟨hx1, hx2⟩ := ihmem x hx'
          refine ⟨le_trans hps hx1, fun e => ?_⟩
          subst e
          exact hsp (le_antisymm hx1 hps)
      · exact List.nodup_cons.mpr ⟨fun hmem => (ihmem s hmem).2 rfl, ihnd⟩

/-- The loop `dedupeAux` only drops elements. -/
lemma dedupeAux_sublist (rest : List (List Char)) : ∀ prev : List Char,
    (dedupeAux prev rest).Sublist rest := by
  induction rest with
  | nil =>
    intro prev
    simp [dedupeAux]
  | cons s rest ih =>
    intro prev
    rw [dedupeAux]
    split
    · exact (ih s).trans (List.sublist_cons_self s rest)
    · exact (ih s).cons₂ s

/-- The function `dedupe` only drops elements. -/
lemma dedupe_sublist (l : List (List Char)) : (dedupe l).Sublist l := by
  rw [dedupe.eq_def]
  split
  · exact List.Sublist.refl l
  · match l with
    | [] => exact List.Sublist.refl []
    | s :: rest => exact (dedupeAux_sublist rest s).cons₂ s

/-- On a sorted input, `dedupe` produces a sorted, duplicate-free output. -/
lemma dedupe_sorted_nodup (l : List (List Char)) (h : l.Pairwise (· ≤ ·)) :
    (dedupe l).Pairwise (· ≤ ·) ∧ (dedupe l).Nodup := by
  refine ⟨h.sublist (dedupe_sublist l), ?_⟩
  rw [dedupe.eq_def]
  split
  · rename_i hlen
    match l with
    | [] => exact List.nodup_nil
    | [x] => simp
    | x :: y :: rest =>
      rw [List.length_cons, List.length_cons] at hlen
      exact absurd hlen (by omega)
  · match l, h with
    | [], _ => exact List.nodup_nil
    | s :: rest, h =>
      exact List.nodup_cons.mpr
        ⟨fun hmem => ((dedupeAux_spec rest s h).1 s hmem).2 rfl,
         (dedupeAux_spec rest s h).2⟩

/-! ## Claims -/

/-- C1: `findSideBySideMarker` reports a marker exactly when the character at
the fixed index `(sideBySideWidth / 2) - 1 = 99` is one of `|`, `<`, `>`, the
character before it is a space or tab, and either the character after it is a
space or tab, or the line ends immediately after the marker, in which case
only the one-sided markers `<` and `>` are accepted; the reported index is
always 99, so a marker character anywhere else, or one not flanked by
whitespace, is never recognized. -/
theorem findSideBySideMarker_characterization (line : List Char) (i : Nat) (c : Char) :
    findSideBySideMarker line = some (i, c) ↔
      (i = 99 ∧ 99 < line.length ∧ line.getD 99 ' ' = c ∧
       (c = '|' ∨ c = '<' ∨ c = '>') ∧
       (line.getD 98 ' ' = ' ' ∨ line.getD 98 ' ' = '\t') ∧
       ((line.length = 100 ∧ (c = '<' ∨ c = '>')) ∨
        (100 < line.length ∧
          (line.getD 100 ' ' = ' ' ∨ line.getD 100 ' ' = '\t')))) := by
  have hmid : sideBySideWidth / 2 - 1 = 99 := rfl
  simp only [findSideBySideMarker, hmid]
  by_cases h0 : line.length = 0
  · rw [if_pos h0]
    constructor
    · intro h
      simp at h
    · rintro ⟨-, hl, -⟩
      omega
  · rw [if_neg h0]
    by_cases hlen : 99 ≥ line.length
    · rw [if_pos hlen]
      constructor
      · intro h
        simp at h
      · rintro ⟨-, hl, -⟩
        omega
    · rw [if_neg hlen]
      push_neg at hlen
      by_cases hm : line.getD 99 ' ' = '|' ∨ line.getD 99 ' ' = '<' ∨ line.getD 99 ' ' = '>'
      · rw [if_pos hm]
        by_cases hl : isLikelySideBySideMarker line 99 (line.getD 99 ' ') = true
        · rw [if_pos hl]
          rw [isLikelySideBySideMarker_iff line 99 _ (by omega) (by omega)] at hl
          simp only [show (99 : Nat) - 1 = 98 from rfl,
            show (99 : Nat) + 1 = 100 from rfl] at hl
          constructor
          · intro h
            simp only [Option.some.injEq, Prod.mk.injEq] at h
            obtain ⟨hi, hc⟩ := h
            subst hi
            subst hc
            refine ⟨rfl, hlen, rfl, hm, hl.1, ?_⟩
            rcases hl.2 with ⟨he, hmk⟩ | h
            · exact .inl ⟨by omega, hmk⟩
            · exact .inr h
          · rintro ⟨hi, -, hc, -, -, -⟩
            subst hi
            rw [hc]
        · rw [if_neg hl]
          constructor
          · intro h
            simp at h
          · rintro ⟨hi, -, hc, hmark, hprev, hend⟩
            exfalso
            apply hl
            rw [isLikelySideBySideMarker_iff line 99 _ (by omega) (by omega)]
            simp only [show (99 : Nat) - 1 = 98 from rfl,
              show (99 : Nat) + 1 = 100 from rfl]
            refine ⟨hprev, ?_⟩
            rcases hend with ⟨he, hmk⟩ | h
            · refine .inl ⟨by omega, ?_⟩
              rw [hc]
              exact hmk
            · exact .inr h
      · rw [if_neg hm]
        constructor
        · intro h
          simp at h
        · rintro ⟨-, -, hc, hmark, -⟩
          refine absurd ?_ hm
          rw [hc]
          exact hmark

/-- C10: a line of at most 99 characters (such as the diff tool's per-file
header lines, which never reach the marker column) carries no marker, is
dropped by the line filter of `suppressCommonSideBySideDiffLines`, and is
emitted by `formatSideBySideDiffHTMLLine` as a single HTML-escaped segment
with no coloring spans. -/
theorem short_line_no_marker (line : List Char) (h : line.length ≤ 99) :
    findSideBySideMarker line = none ∧
    (∀ t, line ∉ (splitLines t).filter (fun l => (findSideBySideMarker l).isSome)) ∧
    formatSideBySideDiffHTMLLine line = htmlEscapeString line := by
  have h1 : findSideBySideMarker line = none :=
    findSideBySideMarker_eq_none_of_short line h
  refine ⟨h1, ?_, ?_⟩
  · intro t hmem
    have h2 := (List.mem_filter.mp hmem).2
    rw [h1] at h2
    simp at h2
  · rw [formatSideBySideDiffHTMLLine]
    by_cases h0 : line = []
    · rw [if_pos h0]
      subst h0
      rfl
    · rw [if_neg h0, h1]

/-- C10 witness: the 11-character header-like line "diff -r a b" is below the
marker column, carries no marker, survives no suppression filter, and is
HTML-emitted unchanged (it contains nothing to escape). -/
theorem short_line_no_marker_witness :
    ("diff -r a b".toList.length ≤ 99) ∧
    (findSideBySideMarker "diff -r a b".toList = none ∧
     (∀ t, "diff -r a b".toList ∉
        (splitLines t).filter (fun l => (findSideBySideMarker l).isSome)) ∧
     formatSideBySideDiffHTMLLine "diff -r a b".toList =
        htmlEscapeString "diff -r a b".toList) :=
  ⟨by decide, short_line_no_marker "diff -r a b".toList (by decide)⟩

/-- C9: when the detected change set is empty, the run writes the Markdown
comment artifact as an empty file, records `has_flow_changes` as `false`
(together with the artifact paths), and performs no render or diff
invocations. -/
theorem run_empty_changeset (data : List Char → FlowData) (diffFormatSbs : Bool)
    (baseSHA headSHA commentFile htmlFileOutput : List Char) :
    runModel [] data diffFormatSbs baseSHA headSHA commentFile htmlFileOutput =
      { commentFileContent := []
        outputs := [("has_flow_changes".toList, "false".toList),
                    ("comment_file".toList, commentFile),
                    ("html_file".toList, htmlFileOutput)]
        renderInvocations := 0
        diffInvocations := 0 } := rfl

/-- C5: when the flow file exists and directory-mode conversion exits non-zero
while stream mode succeeds, the outcome is status 0 (`Rendered`) with the
captured stdout recorded as the single artifact `generated.apex`; when both
modes exit non-zero the outcome is status 1 (`ConverterFailed`) with the two
stderr streams concatenated as the log; a launch error in either mode is an
`Except.error`, which the caller `run` propagates, aborting the run. -/
theorem renderFlow_fallback_spec (s1 s2 out : List Char) (w : Bool) :
    renderFlow .present (.exitErr s1) (.success out s2) true =
        .ok ⟨0, s1 ++ s2, [("generated.apex".toList, out)]⟩ ∧
    renderFlow .present (.exitErr s1) (.exitErr out s2) w = .ok ⟨1, s1 ++ s2, []⟩ ∧
    (∀ streamRun, renderFlow .present .launchErr streamRun w =
        .error "run flow2apex with output-dir".toList) ∧
    renderFlow .present (.exitErr s1) .launchErr w =
        .error "run flow2apex fallback".toList :=
  ⟨rfl, rfl, fun _ => rfl, rfl⟩

/-- C3 counterexample: a 4001-byte converter log truncated by `truncateBytes`
at the 4000-byte cap is cut to a strict prefix of the input — content was
lost and no truncation marker of any kind was appended — refuting the claim
that every truncation in the program appends an explicit marker. -/
theorem truncateBytes_silent_counterexample :
    truncateBytes (List.replicate 4001 'x') maxErrorChars = List.replicate 4000 'x' ∧
    truncateBytes (List.replicate 4001 'x') maxErrorChars <+: List.replicate 4001 'x' ∧
    truncateBytes (List.replicate 4001 'x') maxErrorChars ≠ List.replicate 4001 'x' := by
  have h1 : truncateBytes (List.replicate 4001 'x') maxErrorChars = List.replicate 4000 'x' := by
    rw [truncateBytes, if_neg (by rw [List.length_replicate]; decide), List.take_replicate]
    norm_num [maxErrorChars]
  refine ⟨h1, ?_, ?_⟩
  · rw [truncateBytes]
    split
    · exact List.prefix_rfl
    · exact List.take_prefix _ _
  · rw [h1]
    intro h
    have hlen := congrArg List.length h
    rw [List.length_replicate, List.length_replicate] at hlen
    exact absurd hlen (by decide)

/-- C3 amended: the diff truncation (cap 12000) and the comment-body
truncation (cap 60000) return content at or under the cap unchanged and
append their explicit human-readable markers when content is cut, but the
per-revision converter-log truncation `truncateBytes` (cap 4000) is silent:
it returns a bare prefix of the data, appending nothing. -/
theorem truncation_policy_amended (d : List Char) :
    (d.length ≤ maxDiffChars → truncateDiff d = d) ∧
    (maxDiffChars < d.length →
        truncateDiff d = d.take maxDiffChars ++ "\n...diff truncated...".toList ∧
        "\n...diff truncated...".toList <:+ truncateDiff d) ∧
    (d.length ≤ maxCommentChars → truncateCommentBody d = d) ∧
    (maxCommentChars < d.length →
        truncateCommentBody d = d.take maxCommentChars
            ++ "\n...comment truncated due to size limit...\n".toList ∧
        "\n...comment truncated due to size limit...\n".toList <:+ truncateCommentBody d) ∧
    (∀ mx : Nat, d.length ≤ mx → truncateBytes d mx = d) ∧
    (∀ mx : Nat, mx < d.length →
        truncateBytes d mx = d.take mx ∧ truncateBytes d mx <+: d) := by
  refine ⟨?_, ?_, ?_, ?_, ?_, ?_⟩
  · intro h; rw [truncateDiff, if_pos h]
  · intro h
    have he : truncateDiff d = d.take maxDiffChars ++ "\n...diff truncated...".toList := by
      rw [truncateDiff, if_neg (by omega)]
    exact ⟨he, he ▸ List.suffix_append _ _⟩
  · intro h; rw [truncateCommentBody, if_neg (by omega)]
  · intro h
    have he : truncateCommentBody d = d.take maxCommentChars
        ++ "\n...comment truncated due to size limit...\n".toList := by
      rw [truncateCommentBody, if_pos (by omega)]
    exact ⟨he, he ▸ List.suffix_append _ _⟩
  · intro mx h; rw [truncateBytes, if_pos h]
  · intro mx h
    have he : truncateBytes d mx = d.take mx := by
      rw [truncateBytes, if_neg (by omega)]
    exact ⟨he, he ▸ List.take_prefix _ _⟩

/-- C3 amended, witness at concrete inputs: a 3-byte text is under every cap
and returned unchanged by all three truncations; at cap 2 `truncateBytes`
cuts it to its 2-byte prefix. -/
theorem truncation_policy_amended_witness :
    ("abc".toList.length ≤ maxDiffChars → truncateDiff "abc".toList = "abc".toList) ∧
    (maxDiffChars < "abc".toList.length →
        truncateDiff "abc".toList = "abc".toList.take maxDiffChars
            ++ "\n...diff truncated...".toList ∧
        "\n...diff truncated...".toList <:+ truncateDiff "abc".toList) ∧
    ("abc".toList.length ≤ maxCommentChars →
        truncateCommentBody "abc".toList = "abc".toList) ∧
    (maxCommentChars < "abc".toList.length →
        truncateCommentBody "abc".toList = "abc".toList.take maxCommentChars
            ++ "\n...comment truncated due to size limit...\n".toList ∧
        "\n...comment truncated due to size limit...\n".toList <:+
            truncateCommentBody "abc".toList) ∧
    (∀ mx : Nat, "abc".toList.length ≤ mx → truncateBytes "abc".toList mx = "abc".toList) ∧
    (∀ mx : Nat, mx < "abc".toList.length →
        truncateBytes "abc".toList mx = "abc".toList.take mx ∧
        truncateBytes "abc".toList mx <+: "abc".toList) :=
  truncation_policy_amended "abc".toList

/-- C2 counterexample: a flow added in the PR whose head conversion succeeds —
base render outcome is status 2 (`FileMissingAtRevision`), head status 0 —
produces no conversion-issues block at all, and its full per-flow comment
section does not contain the text "Base flow file missing (added in PR)",
refuting the claim that every added flow is so marked. -/
theorem addedFlow_notice_counterexample :
    renderFlow .notExist (.success []) (.success [] []) true = .ok ⟨2, [], []⟩ ∧
    conversionIssuesBlock 2 0 [] [] = [] ∧
    hasSubstring
        (flowSection "f.flow".toList 2 0 [] [] false 1 "x".toList)
        "Base flow file missing (added in PR)".toList = false := by
  refine ⟨rfl, by decide, by decide⟩

/-- C2 amended: a flow absent at one revision renders with status 2
(`FileMissingAtRevision`); the report contains the "Base flow file missing
(added in PR)" notice exactly in the sections where the other side's
conversion failed (status 1) — when neither side's conversion failed, the
conversion-issues block (and with it the notice) is omitted entirely;
symmetric for a flow deleted in the PR. -/
theorem missingFlow_notice_amended (baseLog headLog : List Char)
    (dirRun : DirModeResult) (streamRun : StreamModeResult) (w : Bool) :
    renderFlow .notExist dirRun streamRun w = .ok ⟨2, [], []⟩ ∧
    hasSubstring (conversionIssuesBlock 2 1 baseLog headLog)
        "- Base flow file missing (added in PR)\n".toList = true ∧
    hasSubstring (conversionIssuesBlock 1 2 baseLog headLog)
        "- Head flow file missing (deleted in PR)\n".toList = true ∧
    (∀ headStatus : Nat, headStatus ≠ 1 →
        conversionIssuesBlock 2 headStatus baseLog headLog = []) ∧
    (∀ baseStatus : Nat, baseStatus ≠ 1 →
        conversionIssuesBlock baseStatus 2 baseLog headLog = []) := by
  refine ⟨rfl, ?_, ?_, ?_, ?_⟩
  · rw [conversionIssuesBlock]
    norm_num
    simpa [List.append_assoc] using
      hasSubstring_of_append "Conversion issues:\n\n".toList
        "- Base flow file missing (added in PR)\n".toList
        ("- Head conversion failed\n".toList ++ ("\n".toList ++ logsBlock baseLog headLog))
  · rw [conversionIssuesBlock]
    norm_num
    simpa [List.append_assoc] using
      hasSubstring_of_append
        ("Conversion issues:\n\n".toList ++ "- Base conversion failed\n".toList)
        "- Head flow file missing (deleted in PR)\n".toList
        ("\n".toList ++ logsBlock baseLog headLog)
  · intro hs h
    rw [conversionIssuesBlock, if_neg (by omega)]
  · intro bs h
    rw [conversionIssuesBlock, if_neg (by omega)]

/-- C8: in unified mode, `diffRenderedOutputs` hands back the diff tool's
exit code and captured text (a launch failure is an error instead), and the
per-flow report switch maps exit 0 to the fixed "No generated Apex
differences." section, exit 1 to a fenced section that includes the diff
text, and every other exit code to the fixed "Failed to generate diff
output." section. -/
theorem unified_diff_outcome_mapping (uniProc : ProcResult) (sbsProc : Bool → ProcResult)
    (flowPath baseDir headDir t : List Char) :
    ((runDiffCommand uniProc).launchErr = false →
        diffRenderedOutputs false sbsProc uniProc flowPath baseDir headDir =
          .ok ((runDiffCommand uniProc).exitCode, (runDiffCommand uniProc).stdout)) ∧
    ((runDiffCommand uniProc).launchErr = true →
        diffRenderedOutputs false sbsProc uniProc flowPath baseDir headDir =
          .error uniLaunchErrMsg) ∧
    diffSection false 0 t = "No generated Apex differences.\n\n".toList ∧
    (t.length ≤ maxDiffChars → hasSubstring (diffSection false 1 t) t = true) ∧
    (∀ e : Int, e ≠ 0 → e ≠ 1 →
        diffSection false e t = "Failed to generate diff output.\n\n".toList) := by
  refine ⟨?_, ?_, ?_, ?_, ?_⟩
  · intro h
    rw [diffRenderedOutputs, if_neg (by simp)]
    simp [h]
  · intro h
    rw [diffRenderedOutputs, if_neg (by simp)]
    simp [h]
  · rfl
  · intro h
    have ht : truncateDiff t = t := by rw [truncateDiff, if_pos h]
    rw [diffSection, if_pos rfl]
    simp only [Bool.false_eq_true, if_false, ht, List.append_assoc]
    exact hasSubstring_of_append "```diff\n".toList t _
  · intro e h0 h1
    rw [diffSection, if_neg h1, if_neg h0]

/-- C8 witness: the diff tool ran and exited 2 in unified mode; the engine
returns exit 2 with the captured text, and the report sections for a
one-character diff text take the three stated forms. -/
theorem unified_diff_outcome_mapping_witness :
    ((runDiffCommand (.completed 2 "o".toList "e".toList)).launchErr = false →
        diffRenderedOutputs false (fun _ => .launchFailed)
            (.completed 2 "o".toList "e".toList) "f".toList "b".toList "h".toList =
          .ok ((runDiffCommand (.completed 2 "o".toList "e".toList)).exitCode,
               (runDiffCommand (.completed 2 "o".toList "e".toList)).stdout)) ∧
    ((runDiffCommand (.completed 2 "o".toList "e".toList)).launchErr = true →
        diffRenderedOutputs false (fun _ => .launchFailed)
            (.completed 2 "o".toList "e".toList) "f".toList "b".toList "h".toList =
          .error uniLaunchErrMsg) ∧
    diffSection false 0 "x".toList = "No generated Apex differences.\n\n".toList ∧
    ("x".toList.length ≤ maxDiffChars →
        hasSubstring (diffSection false 1 "x".toList) "x".toList = true) ∧
    (∀ e : Int, e ≠ 0 → e ≠ 1 →
        diffSection false e "x".toList = "Failed to generate diff output.\n\n".toList) :=
  unified_diff_outcome_mapping (.completed 2 "o".toList "e".toList)
    (fun _ => .launchFailed) "f".toList "b".toList "h".toList "x".toList

/-- C4: on the first side-by-side attempt (with tab expansion), a launch
failure is an error; a completed run that is not rejected (exit 2 with a
recognized unsupported-option diagnostic) is returned at once, with the text
path-rewritten and header-stripped, independently of what a second attempt
would produce; a rejected first attempt leads to exactly one retry without
tab expansion, whose result is returned unless it is itself rejected, in
which case the fixed tooling error surfaces instead of any format fallback. -/
theorem diffSideBySide_retry_policy (proc : Bool → ProcResult) (fp bd hd : List Char) :
    ((runDiffCommand (proc true)).launchErr = true →
        diffSideBySide proc fp bd hd = .error sbsLaunchErrMsg) ∧
    ((runDiffCommand (proc true)).launchErr = false →
      ¬((runDiffCommand (proc true)).exitCode = 2 ∧
          sideBySideOptionUnsupported (runDiffCommand (proc true)).stderr = true) →
        diffSideBySide proc fp bd hd =
          .ok ((runDiffCommand (proc true)).exitCode,
            removeSideBySideCommandHeaders
              (rewriteSideBySideDiffPaths (runDiffCommand (proc true)).stdout fp bd hd))) ∧
    ((runDiffCommand (proc true)).launchErr = false →
      (runDiffCommand (proc true)).exitCode = 2 →
      sideBySideOptionUnsupported (runDiffCommand (proc true)).stderr = true →
        ((runDiffCommand (proc false)).launchErr = true →
            diffSideBySide proc fp bd hd = .error sbsLaunchErrMsg) ∧
        ((runDiffCommand (proc false)).launchErr = false →
          (runDiffCommand (proc false)).exitCode = 2 →
          sideBySideOptionUnsupported (runDiffCommand (proc false)).stderr = true →
            diffSideBySide proc fp bd hd = .error sbsUnsupportedMsg) ∧
        ((runDiffCommand (proc false)).launchErr = false →
          ¬((runDiffCommand (proc false)).exitCode = 2 ∧
              sideBySideOptionUnsupported (runDiffCommand (proc false)).stderr = true) →
            diffSideBySide proc fp bd hd =
              .ok ((runDiffCommand (proc false)).exitCode,
                removeSideBySideCommandHeaders
                  (rewriteSideBySideDiffPaths (runDiffCommand (proc false)).stdout
                    fp bd hd)))) ∧
    ((runDiffCommand (proc true)).launchErr = false →
      ¬((runDiffCommand (proc true)).exitCode = 2 ∧
          sideBySideOptionUnsupported (runDiffCommand (proc true)).stderr = true) →
      ∀ proc2 : Bool → ProcResult, proc2 true = proc true →
        diffSideBySide proc2 fp bd hd = diffSideBySide proc fp bd hd) := by
  have hok : ∀ p : Bool → ProcResult, p true = proc true →
      (runDiffCommand (proc true)).launchErr = false →
      ¬((runDiffCommand (proc true)).exitCode = 2 ∧
          sideBySideOptionUnsupported (runDiffCommand (proc true)).stderr = true) →
      diffSideBySide p fp bd hd =
        .ok ((runDiffCommand (proc true)).exitCode,
          removeSideBySideCommandHeaders
            (rewriteSideBySideDiffPaths (runDiffCommand (proc true)).stdout fp bd hd)) := by
    intro p hp h hrej
    rw [diffSideBySide, diffSideBySideLoop, hp]
    simp [h, hrej]
  refine ⟨?_, hok proc rfl, ?_,
    fun h hrej proc2 hp => (hok proc2 hp h hrej).trans (hok proc rfl h hrej).symm⟩
  · intro h
    rw [diffSideBySide, diffSideBySideLoop]
    simp [h]
  · intro h he hu
    refine ⟨?_, ?_, ?_⟩
    · intro h2
      rw [diffSideBySide, diffSideBySideLoop]
      simp only [h, he, hu, Bool.false_eq_true, if_false, and_self, if_true]
      rw [diffSideBySideLoop]
      simp [h2]
    · intro h2 he2 hu2
      rw [diffSideBySide, diffSideBySideLoop]
      simp only [h, he, hu, Bool.false_eq_true, if_false, and_self, if_true]
      rw [diffSideBySideLoop]
      simp only [h2, he2, hu2, Bool.false_eq_true, if_false, and_self, if_true]
      rfl
    · intro h2 hrej2
      rw [diffSideBySide, diffSideBySideLoop]
      simp only [h, he, hu, Bool.false_eq_true, if_false, and_self, if_true]
      rw [diffSideBySideLoop]
      simp [h2, hrej2]

/-- C4 witness: the first attempt is rejected with exit 2 and an
"unrecognized option" diagnostic, the retry completes with exit 1 and empty
output; all four clauses instantiate, and the rejected-then-retry clause
yields the retry's result. -/
theorem diffSideBySide_retry_policy_witness :
    ((runDiffCommand (procW true)).launchErr = false ∧
     (runDiffCommand (procW true)).exitCode = 2 ∧
     sideBySideOptionUnsupported (runDiffCommand (procW true)).stderr = true ∧
     (runDiffCommand (procW false)).launchErr = false ∧
     ¬((runDiffCommand (procW false)).exitCode = 2 ∧
         sideBySideOptionUnsupported (runDiffCommand (procW false)).stderr = true)) ∧
    diffSideBySide procW "f".toList "b".toList "h".toList =
      .ok ((runDiffCommand (procW false)).exitCode,
        removeSideBySideCommandHeaders
          (rewriteSideBySideDiffPaths (runDiffCommand (procW false)).stdout
            "f".toList "b".toList "h".toList)) := by
  refine ⟨⟨rfl, rfl, by decide, rfl, by decide⟩, ?_⟩
  exact ((diffSideBySide_retry_policy procW "f".toList "b".toList "h".toList).2.2.1
    rfl rfl (by decide)).2.2 rfl (by decide)

/-- C6: `suppressCommonSideBySideDiffLines` is idempotent, it equals the
join of exactly those input lines in which a true marker is found, and that
retained line list is a sublist of the input's line list, so the retained
lines keep their relative order. -/
theorem suppress_idempotent_filter (t : List Char) :
    suppressCommonSideBySideDiffLines (suppressCommonSideBySideDiffLines t) =
      suppressCommonSideBySideDiffLines t ∧
    suppressCommonSideBySideDiffLines t =
      joinLines ((splitLines t).filter (fun l => (findSideBySideMarker l).isSome)) ∧
    ((splitLines t).filter (fun l => (findSideBySideMarker l).isSome)).Sublist
      (splitLines t) := by
  have h2 : suppressCommonSideBySideDiffLines t =
      joinLines ((splitLines t).filter (fun l => (findSideBySideMarker l).isSome)) := by
    rw [suppressCommonSideBySideDiffLines]
    split
    · rename_i he
      subst he
      rfl
    · rfl
  refine ⟨?_, h2, List.filter_sublist _⟩
  rw [h2]
  by_cases hnil :
      joinLines ((splitLines t).filter (fun l => (findSideBySideMarker l).isSome)) = []
  · rw [hnil]
    rfl
  · rw [suppressCommonSideBySideDiffLines, if_neg hnil]
    have hFne : (splitLines t).filter (fun l => (findSideBySideMarker l).isSome) ≠ [] := by
      intro e
      rw [e] at hnil
      exact hnil rfl
    have hnewline :
        ∀ l ∈ (splitLines t).filter (fun l => (findSideBySideMarker l).isSome),
          '\n' ∉ l := fun l hl =>
      not_newline_mem_splitLines t l (List.mem_of_mem_filter hl)
    rw [splitLines_joinLines _ hFne hnewline,
      List.filter_eq_self.mpr (fun a ha => (List.mem_filter.mp ha).2)]

/-- C7: every path returned by the change detector ends in `.flow` or
`.flow-meta.xml`, the returned sequence is sorted in ascending lexicographic
order, and it contains no duplicates. -/
theorem detectChangedFlows_spec (gitOutput : List Char) :
    (∀ p ∈ detectChangedFlows gitOutput,
        ".flow".toList.isSuffixOf p = true ∨
        ".flow-meta.xml".toList.isSuffixOf p = true) ∧
    List.Sorted (· ≤ ·) (detectChangedFlows gitOutput) ∧
    (detectChangedFlows gitOutput).Nodup := by
  simp only [detectChangedFlows]
  have hsort :
      (List.insertionSort (· ≤ ·)
        (((splitLines (trimSpace gitOutput)).map trimSpace).filter
          (fun line => !line.isEmpty && flowFileMatch line))).Pairwise (· ≤ ·) :=
    List.sorted_insertionSort (· ≤ ·) _
  obtain ⟨hp, hnd⟩ := dedupe_sorted_nodup _ hsort
  refine ⟨?_, hp, hnd⟩
  intro p hmem
  have h1 := (dedupe_sublist _).subset hmem
  have h2 := (List.perm_insertionSort (· ≤ ·) _).mem_iff.mp h1
  have h3 := (List.mem_filter.mp h2).2
  rw [Bool.and_eq_true] at h3
  have h4 := h3.2
  rw [flowFileMatch, Bool.or_eq_true] at h4
  exact h4

end Flow2Apex
